import Mathlib

/-!
# Discrete PID controller of Arduino-FOC (`src/common/pid.cpp`)

A shallow embedding of `PIDController` and of its evaluation forms, and of the
member initialisers of `HFIBLDCMotor` (`src/HFIBLDCMotor.h`) that precompute the
gains of the HFI estimator.

The code computes in `float`. It is embedded twice, with the same structure:

* `PIDController`, `HFIBLDCMotor`: the exact reading. Every `float` is an exact
  rational `ℚ` and every operation is the exact operation: no rounding, no
  overflow, no NaN. The float literals `0.5f`, `1e-6f`, `1e-3f`, `1.0f` are the
  rationals `1/2`, `1/1000000`, `1/1000`, `1`. Division of rationals is total
  (`1 / 0 = 0`); every theorem that depends on the value of `1 / Ts` assumes
  `Ts ≠ 0` or `0 < Ts`. Theorems over this reading are statements "in exact
  arithmetic".
* `PIDControllerF32` and the `F32` functions: the machine reading. A `float` is
  an IEEE 754 binary32 value (`F32`), each operation is rounded to nearest,
  ties to even, overflows to an infinity and propagates NaN, and a comparison
  with a NaN is false. This reading is used to evaluate the code at concrete
  inputs.

Further conventions

* `unsigned long` timestamps are natural numbers; the subtraction of two of
  them is reduced modulo `2 ^ w`, with `w` the width of `unsigned long` on the
  target (32 on the Arduino targets), taken as a parameter.
* `_micros()` is an input: the value it returns is passed as an argument.
* A member function becomes a function from the state before the call to the
  returned value paired with the state after the call.
-/

/-- Modelled from the spec: the macro `_constrain(amt, low, high)` of
`common/foc_utils.h`, which is used by `calc_pid` but is not among the sources.
The spec describes its two uses as "clamped to `[-limit, limit]`"; the model is
the usual comparison chain `amt < low ? low : (amt > high ? high : amt)`. -/
def _constrain (amt low high : ℚ) : ℚ :=
  if amt < low then low else if amt > high then high else amt

/-- The data members of `PIDController`: the gains `P`, `I`, `D`, the slew
limit `output_ramp`, the symmetric output `limit`, and the history
`error_prev`, `output_prev`, `integral_prev`, `timestamp_prev`; the `float`
members are exact rationals (the exact reading). -/
structure PIDController where
  P : ℚ
  I : ℚ
  D : ℚ
  output_ramp : ℚ
  limit : ℚ
  error_prev : ℚ
  output_prev : ℚ
  integral_prev : ℚ
  timestamp_prev : ℕ
deriving DecidableEq

namespace PIDController

/-- The constructor `PIDController::PIDController(P, I, D, ramp, limit)`
(pid.cpp lines 3-14); `micros` is the value returned by `_micros()`. -/
def ctor (P I D ramp limit : ℚ) (micros : ℕ) : PIDController :=
  { P := P
    I := I
    D := D
    output_ramp := ramp
    limit := limit
    error_prev := 0
    output_prev := 0
    integral_prev := 0
    timestamp_prev := micros }

/-- The general form `calc_pid(error, Ts, Ts_inv)` (pid.cpp lines 43-78) in the
exact reading: returns the output and the state after the call. The machine
reading is `PIDControllerF32.calc_pid`. -/
def calc_pid (s : PIDController) (error Ts Ts_inv : ℚ) : ℚ × PIDController :=
  -- u_p = P * e(k)
  let proportional := s.P * error
  -- u_ik = u_ik_1 + I*Ts/2*(ek + ek_1)
  let integral := s.integral_prev + s.I * Ts * (1 / 2) * (error + s.error_prev)
  let integral := _constrain integral (-s.limit) s.limit
  -- u_dk = D(ek - ek_1)/Ts
  let derivative := s.D * (error - s.error_prev) * Ts_inv
  let output := proportional + integral + derivative
  let output := _constrain output (-s.limit) s.limit
  let output :=
    if s.output_ramp > 0 then
      let output_rate := (output - s.output_prev) * Ts_inv
      if output_rate > s.output_ramp then
        s.output_prev + s.output_ramp * Ts
      else if output_rate < -s.output_ramp then
        s.output_prev - s.output_ramp * Ts
      else output
    else output
  (output,
    { s with integral_prev := integral, output_prev := output, error_prev := error })

/-- The two-argument form `calc_pid(error, Ts)` (pid.cpp lines 39-41), which
calls the general form with `1.0f/Ts`; in the exact reading that is the exact
inverse `1 / Ts`. The machine reading, with the rounded quotient, is
`PIDControllerF32.calc_pid_Ts`. -/
def calc_pid_Ts (s : PIDController) (error Ts : ℚ) : ℚ × PIDController :=
  s.calc_pid error Ts (1 / Ts)

/-- The externally-timed form `operator()(error, Ts)` (pid.cpp lines 29-32). -/
def operator_call_Ts (s : PIDController) (error Ts : ℚ) : ℚ × PIDController :=
  s.calc_pid_Ts error Ts

/-- The externally-timed form with a precomputed inverse,
`operator()(error, Ts, Ts_inv)` (pid.cpp lines 34-37). -/
def operator_call_Ts_inv (s : PIDController) (error Ts Ts_inv : ℚ) :
    ℚ × PIDController :=
  s.calc_pid error Ts Ts_inv

/-- The difference `timestamp_now - timestamp_prev` of two `unsigned long`
values of width `w`: the mathematical difference reduced modulo `2 ^ w`. -/
def ulong_sub (w : ℕ) (a b : ℕ) : ℤ :=
  ((a : ℤ) - (b : ℤ)) % (2 : ℤ) ^ w

/-- The self-timed form `operator()(error)` (pid.cpp lines 17-27);
`timestamp_now` is the value returned by `_micros()` and `w` the width of
`unsigned long`. -/
def operator_call (w : ℕ) (s : PIDController) (timestamp_now : ℕ) (error : ℚ) :
    ℚ × PIDController :=
  let Ts : ℚ := (ulong_sub w timestamp_now s.timestamp_prev : ℚ) * (1 / 1000000)
  let Ts : ℚ := if Ts ≤ 0 ∨ Ts > 1 / 2 then 1 / 1000 else Ts
  let r := s.calc_pid_Ts error Ts
  (r.1, { r.2 with timestamp_prev := timestamp_now })

/-- The member function `reset()` (pid.cpp lines 80-84). -/
def reset (s : PIDController) : PIDController :=
  { s with integral_prev := 0, output_prev := 0, error_prev := 0 }

/-- A call sequence of the externally-timed form: the calls
`operator()(error_k, Ts_k)` are made in order on one controller; the result is
the list of returned outputs and the final state. -/
def callSeq : PIDController → List (ℚ × ℚ) → List ℚ × PIDController
  | s, [] => ([], s)
  | s, x :: rest =>
    let r := s.operator_call_Ts x.1 x.2
    let rs := callSeq r.2 rest
    (r.1 :: rs.1, rs.2)

/-- The integral term of one evaluation after anti-windup (pid.cpp lines
51-54): the trapezoidal update, constrained to `[-limit, limit]`. -/
def integral_term (s : PIDController) (error Ts : ℚ) : ℚ :=
  _constrain (s.integral_prev + s.I * Ts * (1 / 2) * (error + s.error_prev))
    (-s.limit) s.limit

/-- The sum of the three terms after the output constraint and before the
ramp (pid.cpp lines 48-62). -/
def clamped_sum (s : PIDController) (error Ts Ts_inv : ℚ) : ℚ :=
  _constrain
    (s.P * error + s.integral_term error Ts + s.D * (error - s.error_prev) * Ts_inv)
    (-s.limit) s.limit

/-- The elapsed time measured by the self-timed form (pid.cpp line 20): the
wrapped difference of the two timestamps, scaled by `1e-6f`. -/
def elapsed (w : ℕ) (s : PIDController) (timestamp_now : ℕ) : ℚ :=
  (ulong_sub w timestamp_now s.timestamp_prev : ℚ) * (1 / 1000000)

/-- The controller `s` with its stored timestamp replaced by `t` (used to
compare two controllers that were constructed at different times). -/
def withTimestamp (s : PIDController) (t : ℕ) : PIDController :=
  { s with timestamp_prev := t }

/-- The time step that the self-timed form passes to `calc_pid` (pid.cpp lines
20-22): the measured elapsed time, replaced by `1e-3f` when it is not positive
or exceeds `0.5f`. -/
def effective_Ts (w : ℕ) (s : PIDController) (timestamp_now : ℕ) : ℚ :=
  if elapsed w s timestamp_now ≤ 0 ∨ elapsed w s timestamp_now > 1 / 2 then 1 / 1000
  else elapsed w s timestamp_now

/-- The controller `s` with its three history values `error_prev`,
`output_prev` and `integral_prev` negated and everything else kept. -/
def negHistory (s : PIDController) : PIDController :=
  { s with
    error_prev := -s.error_prev
    output_prev := -s.output_prev
    integral_prev := -s.integral_prev }

end PIDController

/-- The data members of `HFIBLDCMotor` that enter the precomputed gains of the
HFI estimator (HFIBLDCMotor.h lines 19-20, 30, 51, 178-179). -/
structure HFIBLDCMotor where
  Ld : ℚ
  Lq : ℚ
  hfi_v : ℚ
  Ts : ℚ
  Ts_div : ℚ
  predivAngleest : ℚ
deriving DecidableEq

namespace HFIBLDCMotor

/-- The initialiser of `Ts_div` (HFIBLDCMotor.h line 178): `1.0f / Ts`. -/
def init_Ts_div (Ts : ℚ) : ℚ :=
  1 / Ts

/-- The divisor in the initialiser of `predivAngleest` (HFIBLDCMotor.h line
179), `hfi_v * Ts * ( 1.0f / Lq - 1.0f / Ld )`, in the exact reading. -/
def predivAngleest_divisor (hfi_v Ts Lq Ld : ℚ) : ℚ :=
  hfi_v * Ts * (1 / Lq - 1 / Ld)

/-- The initialiser of `predivAngleest` (HFIBLDCMotor.h line 179) in the exact
reading. -/
def init_predivAngleest (hfi_v Ts Lq Ld : ℚ) : ℚ :=
  1 / (hfi_v * Ts * (1 / Lq - 1 / Ld))

/-- The members after the default member initialisers have run, in declaration
order, for given values of `Ld`, `Lq`, `hfi_v` and `Ts`. -/
def member_init (Ld Lq hfi_v Ts : ℚ) : HFIBLDCMotor :=
  { Ld := Ld
    Lq := Lq
    hfi_v := hfi_v
    Ts := Ts
    Ts_div := init_Ts_div Ts
    predivAngleest := init_predivAngleest hfi_v Ts Lq Ld }

/-- The default configuration of the header: `Ld = 16e-3f`, `Lq = 24e-3f`,
`hfi_v = 4.0f`, `Ts = 1.0f/60000.0f`. -/
def defaults : HFIBLDCMotor :=
  member_init (16 / 1000) (24 / 1000) 4 (1 / 60000)

end HFIBLDCMotor

/-! ## The machine reading: IEEE 754 binary32 -/

/-- A binary32 value. `finite neg m` is the number `(-1)^neg * m * 2^(-149)`:
every finite binary32 number, subnormal or normal, is a multiple of the least
subnormal `2^(-149)`, and the two zeros are `finite false 0` and
`finite true 0`. `inf neg` is the infinity of that sign and `nan` a NaN. -/
inductive F32 where
  | finite (neg : Bool) (m : ℕ)
  | inf (neg : Bool)
  | nan
deriving DecidableEq

namespace F32

/-- The quotient `a / d` rounded to the nearest natural number, ties to the
even one. -/
def rne (a d : ℕ) : ℕ :=
  if 2 * (a % d) < d then a / d
  else if 2 * (a % d) > d then a / d + 1
  else if (a / d) % 2 = 0 then a / d
  else a / d + 1

/-- The number of halvings that bring `q` below `2^24`, by recursion on a fuel
that `expo` sets to `q` itself (see `F32.expo_spec`). -/
def expoAux : ℕ → ℕ → ℕ
  | 0, _ => 0
  | fuel + 1, q => if q < 2 ^ 24 then 0 else expoAux fuel (q / 2) + 1

/-- The exponent of the spacing of the binary32 numbers around `q * 2^(-149)`:
the spacing there is `2^(expo q) * 2^(-149)`; it is `0` for `q < 2^24` (the
subnormal numbers and the first binade of normal ones) and `⌊log2 q⌋ - 23`
above. -/
def expo (q : ℕ) : ℕ :=
  expoAux q q

/-- The magnitude `a / d` (in units of `2^(-149)`, `d ≠ 0`) rounded to binary32:
to nearest, ties to even, with 24 significant bits; a rounded magnitude of
`2^128` (`2^277` units) or more is an overflow to the infinity. -/
def round (neg : Bool) (a d : ℕ) : F32 :=
  if rne a (d * 2 ^ expo (a / d)) * 2 ^ expo (a / d) ≥ 2 ^ 277 then inf neg
  else finite neg (rne a (d * 2 ^ expo (a / d)) * 2 ^ expo (a / d))

/-- Unary minus: flips the sign, also of a zero or an infinity. -/
def neg : F32 → F32
  | finite s m => finite (!s) m
  | inf s => inf (!s)
  | nan => nan

/-- The binary32 sum. An exact zero sum of two numbers of opposite signs is
`+0`. -/
def add : F32 → F32 → F32
  | nan, _ => nan
  | _, nan => nan
  | inf s1, inf s2 => if s1 = s2 then inf s1 else nan
  | inf s1, finite _ _ => inf s1
  | finite _ _, inf s2 => inf s2
  | finite s1 m1, finite s2 m2 =>
    if s1 = s2 then round s1 (m1 + m2) 1
    else if m1 = m2 then finite false 0
    else if m1 > m2 then round s1 (m1 - m2) 1
    else round s2 (m2 - m1) 1

/-- The binary32 difference `x - y = x + (-y)`. -/
def sub (x y : F32) : F32 :=
  add x (neg y)

/-- The binary32 product; `0 * inf` is a NaN. -/
def mul : F32 → F32 → F32
  | nan, _ => nan
  | _, nan => nan
  | inf s1, inf s2 => inf (xor s1 s2)
  | inf s1, finite s2 m2 => if m2 = 0 then nan else inf (xor s1 s2)
  | finite s1 m1, inf s2 => if m1 = 0 then nan else inf (xor s1 s2)
  | finite s1 m1, finite s2 m2 => round (xor s1 s2) (m1 * m2) (2 ^ 149)

/-- The binary32 quotient; `x / 0` is an infinity for `x ≠ 0`, and `0 / 0` and
`inf / inf` are NaN. -/
def div : F32 → F32 → F32
  | nan, _ => nan
  | _, nan => nan
  | inf _, inf _ => nan
  | inf s1, finite s2 _ => inf (xor s1 s2)
  | finite s1 _, inf s2 => finite (xor s1 s2) 0
  | finite s1 m1, finite s2 m2 =>
    if m2 = 0 then (if m1 = 0 then nan else inf (xor s1 s2))
    else round (xor s1 s2) (m1 * 2 ^ 149) m2

/-- The comparison `x < y` of C: false when an operand is a NaN; the two zeros
are equal. -/
def lt : F32 → F32 → Bool
  | nan, _ => false
  | _, nan => false
  | inf s1, inf s2 => s1 && !s2
  | inf s1, finite _ _ => s1
  | finite _ _, inf s2 => !s2
  | finite s1 m1, finite s2 m2 =>
    decide ((if s1 then -(m1 : ℤ) else (m1 : ℤ)) < (if s2 then -(m2 : ℤ) else (m2 : ℤ)))

/-- The binary32 number `(-1)^s * m / 2^e`, for `e ≤ 149` and `m` of at most 24
bits. -/
def dyadic (s : Bool) (m e : ℕ) : F32 :=
  finite s (m * 2 ^ (149 - e))

/-- The binary32 number `n`, for a natural number `n` that is representable. -/
def ofNat (n : ℕ) : F32 :=
  finite false (n * 2 ^ 149)

end F32

/-- Modelled from the spec: the macro `_constrain(amt, low, high)` of
`common/foc_utils.h` on binary32 values, `amt < low ? low : (amt > high ? high :
amt)`; a NaN fails both comparisons and is returned. -/
def _constrainF32 (amt low high : F32) : F32 :=
  if F32.lt amt low then low else if F32.lt high amt then high else amt

/-- The data members of `PIDController`, as binary32 values. -/
structure PIDControllerF32 where
  P : F32
  I : F32
  D : F32
  output_ramp : F32
  limit : F32
  error_prev : F32
  output_prev : F32
  integral_prev : F32
  timestamp_prev : ℕ
deriving DecidableEq

namespace PIDControllerF32

/-- The constructor (pid.cpp lines 3-14) in binary32. -/
def ctor (P I D ramp limit : F32) (micros : ℕ) : PIDControllerF32 :=
  { P := P
    I := I
    D := D
    output_ramp := ramp
    limit := limit
    error_prev := F32.ofNat 0
    output_prev := F32.ofNat 0
    integral_prev := F32.ofNat 0
    timestamp_prev := micros }

/-- The integral term after anti-windup (pid.cpp lines 51-54) in binary32:
`integral_prev + I*Ts*0.5f*(error + error_prev)`, each operation rounded,
then constrained. -/
def integral_term (s : PIDControllerF32) (error Ts : F32) : F32 :=
  _constrainF32
    (F32.add s.integral_prev
      (F32.mul (F32.mul (F32.mul s.I Ts) (F32.dyadic false 1 1)) (F32.add error s.error_prev)))
    (F32.neg s.limit) s.limit

/-- The constrained sum of the three terms (pid.cpp lines 48-62) in
binary32. -/
def clamped_sum (s : PIDControllerF32) (error Ts Ts_inv : F32) : F32 :=
  _constrainF32
    (F32.add (F32.add (F32.mul s.P error) (s.integral_term error Ts))
      (F32.mul (F32.mul s.D (F32.sub error s.error_prev)) Ts_inv))
    (F32.neg s.limit) s.limit

/-- The general form `calc_pid(error, Ts, Ts_inv)` (pid.cpp lines 43-78) in
binary32, operation by operation in the order of the C expressions. -/
def calc_pid (s : PIDControllerF32) (error Ts Ts_inv : F32) : F32 × PIDControllerF32 :=
  let proportional := F32.mul s.P error
  let integral := F32.add s.integral_prev
    (F32.mul (F32.mul (F32.mul s.I Ts) (F32.dyadic false 1 1)) (F32.add error s.error_prev))
  let integral := _constrainF32 integral (F32.neg s.limit) s.limit
  let derivative := F32.mul (F32.mul s.D (F32.sub error s.error_prev)) Ts_inv
  let output := F32.add (F32.add proportional integral) derivative
  let output := _constrainF32 output (F32.neg s.limit) s.limit
  let output :=
    if F32.lt (F32.ofNat 0) s.output_ramp then
      let output_rate := F32.mul (F32.sub output s.output_prev) Ts_inv
      if F32.lt s.output_ramp output_rate then
        F32.add s.output_prev (F32.mul s.output_ramp Ts)
      else if F32.lt output_rate (F32.neg s.output_ramp) then
        F32.sub s.output_prev (F32.mul s.output_ramp Ts)
      else output
    else output
  (output,
    { s with integral_prev := integral, output_prev := output, error_prev := error })

/-- The two-argument form `calc_pid(error, Ts)` (pid.cpp lines 39-41) in
binary32: the inverse passed on is the rounded quotient `1.0f/Ts`. -/
def calc_pid_Ts (s : PIDControllerF32) (error Ts : F32) : F32 × PIDControllerF32 :=
  s.calc_pid error Ts (F32.div (F32.ofNat 1) Ts)

/-- A call sequence of the externally-timed form `operator()(error, Ts)`
(pid.cpp lines 29-32) in binary32: the outputs and the final state. -/
def callSeq : PIDControllerF32 → List (F32 × F32) → List F32 × PIDControllerF32
  | s, [] => ([], s)
  | s, x :: rest =>
    let r := s.calc_pid_Ts x.1 x.2
    let rs := callSeq r.2 rest
    (r.1 :: rs.1, rs.2)

end PIDControllerF32

namespace HFIBLDCMotor

end HFIBLDCMotor

/-! ## Auxiliary facts -/

theorem constrain_neg (x l : ℚ) (h : 0 ≤ l) :
    _constrain (-x) (-l) l = -_constrain x (-l) l := by
  unfold _constrain
  split_ifs <;> linarith

namespace F32

/-- The fuel of `expo` is enough: the exponent found brings `q` below `2^24`,
and when it is not zero it leaves at least `2^23`, so 24 significant bits. -/
theorem expoAux_spec (fuel : ℕ) :
    ∀ q : ℕ, q ≤ fuel →
      q / 2 ^ expoAux fuel q < 2 ^ 24 ∧
        (0 < expoAux fuel q → 2 ^ 23 ≤ q / 2 ^ expoAux fuel q) := by
  induction fuel with
  | zero =>
    intro q hq
    have h0 : q = 0 := by omega
    subst h0
    simp [expoAux]
  | succ k ih =>
    intro q hq
    by_cases hlt : q < 2 ^ 24
    · have he : expoAux (k + 1) q = 0 := by rw [expoAux, if_pos hlt]
      rw [he]
      simpa using hlt
    · have he : expoAux (k + 1) q = expoAux k (q / 2) + 1 := by rw [expoAux, if_neg hlt]
      have hq2 : q / 2 ≤ k := by omega
      have hrec := ih (q / 2) hq2
      have hdiv : q / 2 ^ (expoAux k (q / 2) + 1) = q / 2 / 2 ^ expoAux k (q / 2) := by
        rw [pow_succ, mul_comm, Nat.div_div_eq_div_mul]
      rw [he, hdiv]
      refine ⟨hrec.1, fun _ => ?_⟩
      rcases Nat.eq_zero_or_pos (expoAux k (q / 2)) with h0 | hpos
      · rw [h0, pow_zero, Nat.div_one]
        omega
      · exact hrec.2 hpos

theorem expo_spec (q : ℕ) :
    q / 2 ^ expo q < 2 ^ 24 ∧ (0 < expo q → 2 ^ 23 ≤ q / 2 ^ expo q) :=
  expoAux_spec q q (le_refl q)

end F32

namespace PIDController

theorem calc_pid_fst (s : PIDController) (error Ts Ts_inv : ℚ) :
    (s.calc_pid error Ts Ts_inv).1 =
      if s.output_ramp > 0 then
        if (s.clamped_sum error Ts Ts_inv - s.output_prev) * Ts_inv > s.output_ramp then
          s.output_prev + s.output_ramp * Ts
        else if (s.clamped_sum error Ts Ts_inv - s.output_prev) * Ts_inv
            < -s.output_ramp then
          s.output_prev - s.output_ramp * Ts
        else s.clamped_sum error Ts Ts_inv
      else s.clamped_sum error Ts Ts_inv := rfl

theorem calc_pid_snd (s : PIDController) (error Ts Ts_inv : ℚ) :
    (s.calc_pid error Ts Ts_inv).2 =
      { s with
        integral_prev := s.integral_term error Ts
        output_prev := (s.calc_pid error Ts Ts_inv).1
        error_prev := error } := rfl

theorem callSeq_cons (s : PIDController) (x : ℚ × ℚ) (rest : List (ℚ × ℚ)) :
    s.callSeq (x :: rest) =
      ((s.operator_call_Ts x.1 x.2).1 :: ((s.operator_call_Ts x.1 x.2).2.callSeq rest).1,
        ((s.operator_call_Ts x.1 x.2).2.callSeq rest).2) := rfl

theorem calc_pid_withTimestamp (s : PIDController) (t : ℕ) (error Ts Ts_inv : ℚ) :
    (s.withTimestamp t).calc_pid error Ts Ts_inv =
      ((s.calc_pid error Ts Ts_inv).1, (s.calc_pid error Ts Ts_inv).2.withTimestamp t) := rfl

/-- The outputs of a call sequence of the externally-timed form do not read the
stored timestamp. -/
theorem callSeq_withTimestamp (t : ℕ) (inputs : List (ℚ × ℚ)) :
    ∀ s : PIDController,
      (s.withTimestamp t).callSeq inputs =
        ((s.callSeq inputs).1, (s.callSeq inputs).2.withTimestamp t) := by
  induction inputs with
  | nil =>
    intro s
    rfl
  | cons x rest ih =>
    intro s
    rw [callSeq_cons, callSeq_cons]
    have h : (s.withTimestamp t).operator_call_Ts x.1 x.2 =
        ((s.operator_call_Ts x.1 x.2).1, (s.operator_call_Ts x.1 x.2).2.withTimestamp t) :=
      s.calc_pid_withTimestamp t x.1 x.2 (1 / x.2)
    rw [h, ih]

theorem reset_eq_ctor (s : PIDController) (micros : ℕ) :
    s.reset = (ctor s.P s.I s.D s.output_ramp s.limit micros).withTimestamp s.timestamp_prev :=
  rfl

theorem integral_term_negHistory (s : PIDController) (error Ts : ℚ) (hlim : 0 ≤ s.limit) :
    s.negHistory.integral_term (-error) Ts = -s.integral_term error Ts := by
  unfold integral_term
  rw [← constrain_neg _ _ hlim]
  show _constrain (-s.integral_prev + s.I * Ts * (1 / 2) * (-error + -s.error_prev))
    (-s.limit) s.limit = _
  congr 1
  ring

theorem clamped_sum_negHistory (s : PIDController) (error Ts Ts_inv : ℚ)
    (hlim : 0 ≤ s.limit) :
    s.negHistory.clamped_sum (-error) Ts Ts_inv = -s.clamped_sum error Ts Ts_inv := by
  unfold clamped_sum
  rw [← constrain_neg _ _ hlim, integral_term_negHistory s error Ts hlim]
  show _constrain (s.P * -error + -s.integral_term error Ts
    + s.D * (-error - -s.error_prev) * Ts_inv) (-s.limit) s.limit = _
  congr 1
  ring

theorem calc_pid_fst_negHistory (s : PIDController) (error Ts Ts_inv : ℚ)
    (hlim : 0 ≤ s.limit) :
    (s.negHistory.calc_pid (-error) Ts Ts_inv).1 = -(s.calc_pid error Ts Ts_inv).1 := by
  rw [calc_pid_fst, calc_pid_fst, clamped_sum_negHistory s error Ts Ts_inv hlim]
  show (if s.output_ramp > 0 then
      if (-s.clamped_sum error Ts Ts_inv - -s.output_prev) * Ts_inv > s.output_ramp then
        -s.output_prev + s.output_ramp * Ts
      else if (-s.clamped_sum error Ts Ts_inv - -s.output_prev) * Ts_inv
          < -s.output_ramp then
        -s.output_prev - s.output_ramp * Ts
      else -s.clamped_sum error Ts Ts_inv
    else -s.clamped_sum error Ts Ts_inv) = _
  have hrate : (-s.clamped_sum error Ts Ts_inv - -s.output_prev) * Ts_inv =
      -((s.clamped_sum error Ts Ts_inv - s.output_prev) * Ts_inv) := by ring
  rw [hrate]
  split_ifs <;> first | rfl | (exfalso; linarith) | ring1

end PIDController

namespace HFIBLDCMotor

end HFIBLDCMotor

/-! ## The claims -/

open PIDController

/-- C6 (`reset()` restores fresh-instance behaviour). For every controller
state `s` (in particular every state reached by a call history), every sequence
of externally-timed calls made after `reset()` returns the same outputs as the
same sequence made on a controller freshly constructed, at any time `micros`,
with the `P`, `I`, `D`, `output_ramp` and `limit` of `s`. -/
theorem pid_reset_as_fresh (s : PIDController) (micros : ℕ) (inputs : List (ℚ × ℚ)) :
    (s.reset.callSeq inputs).1 =
      ((ctor s.P s.I s.D s.output_ramp s.limit micros).callSeq inputs).1 := by
  rw [reset_eq_ctor s micros, callSeq_withTimestamp]

/-- C7 (self-timed fallback). For every pair of timestamps, with `elapsed` the
difference `timestamp_now - timestamp_prev` in unsigned arithmetic of width `w`
(the representative in `[0, 2^w)` of the difference modulo `2^w`) scaled by
`1e-6`, the self-timed form returns exactly `calc_pid(error, Ts)` with
`Ts = 1e-3` if `elapsed ≤ 0` or `elapsed > 0.5` and `Ts = elapsed` otherwise,
stores the history of that evaluation, and stores `timestamp_prev =
timestamp_now` in both cases. -/
theorem pid_self_timed_fallback (w : ℕ) (s : PIDController) (timestamp_now : ℕ)
    (error : ℚ) :
    (operator_call w s timestamp_now error).1 =
      (s.calc_pid_Ts error
        (if elapsed w s timestamp_now ≤ 0 ∨ elapsed w s timestamp_now > 1 / 2
          then 1 / 1000 else elapsed w s timestamp_now)).1 ∧
    (operator_call w s timestamp_now error).2 =
      (s.calc_pid_Ts error
        (if elapsed w s timestamp_now ≤ 0 ∨ elapsed w s timestamp_now > 1 / 2
          then 1 / 1000 else elapsed w s timestamp_now)).2.withTimestamp timestamp_now ∧
    (operator_call w s timestamp_now error).2.timestamp_prev = timestamp_now ∧
    elapsed w s timestamp_now =
      (ulong_sub w timestamp_now s.timestamp_prev : ℚ) * (1 / 1000000) ∧
    0 ≤ ulong_sub w timestamp_now s.timestamp_prev ∧
    ulong_sub w timestamp_now s.timestamp_prev < 2 ^ w ∧
    (2 : ℤ) ^ w ∣
      ((timestamp_now : ℤ) - (s.timestamp_prev : ℤ))
        - ulong_sub w timestamp_now s.timestamp_prev := by
  have hpos : (0 : ℤ) < 2 ^ w := by positivity
  refine ⟨rfl, rfl, rfl, rfl, ?_, ?_, ?_⟩
  · exact Int.emod_nonneg _ (ne_of_gt hpos)
  · exact Int.emod_lt_of_pos _ hpos
  · exact Int.dvd_sub_of_emod_eq rfl

/-- C11 (the three evaluation forms compute the same discretization). For every
state, error and `Ts ≠ 0`, `operator()(error, Ts)` and
`operator()(error, Ts, 1/Ts)` return the same output and leave the same state;
the self-timed `operator()(error)` returns the same output and stores the same
`error_prev`, `output_prev` and `integral_prev` as `operator()(error, Ts_eff)`
for the time step `Ts_eff` it derived from the timestamps. -/
theorem pid_forms_agree (w : ℕ) (s : PIDController) (timestamp_now : ℕ)
    (error Ts : ℚ) (_hTs : Ts ≠ 0) :
    (s.operator_call_Ts error Ts).1 = (s.operator_call_Ts_inv error Ts (1 / Ts)).1 ∧
    (s.operator_call_Ts error Ts).2 = (s.operator_call_Ts_inv error Ts (1 / Ts)).2 ∧
    (operator_call w s timestamp_now error).1 =
      (s.operator_call_Ts error (effective_Ts w s timestamp_now)).1 ∧
    (operator_call w s timestamp_now error).2.error_prev =
      (s.operator_call_Ts error (effective_Ts w s timestamp_now)).2.error_prev ∧
    (operator_call w s timestamp_now error).2.output_prev =
      (s.operator_call_Ts error (effective_Ts w s timestamp_now)).2.output_prev ∧
    (operator_call w s timestamp_now error).2.integral_prev =
      (s.operator_call_Ts error (effective_Ts w s timestamp_now)).2.integral_prev :=
  ⟨rfl, rfl, rfl, rfl, rfl, rfl⟩

/-- Witness of C11: a fresh `PID(P=2, I=1, D=1, ramp=5, limit=3)` constructed at
time 100 and called at time 600 with error 4, and externally timed with
`Ts = 1/10`. -/
theorem pid_forms_agree_witness :
    (1 / 10 : ℚ) ≠ 0 ∧
    ((ctor 2 1 1 5 3 100).operator_call_Ts 4 (1 / 10)).1 =
      ((ctor 2 1 1 5 3 100).operator_call_Ts_inv 4 (1 / 10) (1 / (1 / 10))).1 ∧
    (operator_call 32 (ctor 2 1 1 5 3 100) 600 4).1 =
      ((ctor 2 1 1 5 3 100).operator_call_Ts 4
        (effective_Ts 32 (ctor 2 1 1 5 3 100) 600)).1 := by
  have h1 : (1 / 10 : ℚ) ≠ 0 := by norm_num
  have h := pid_forms_agree 32 (ctor 2 1 1 5 3 100) 600 4 (1 / 10) h1
  exact ⟨h1, h.1, h.2.2.1⟩

/-- C12 (`reset()` frame). For every controller state, `reset()` sets
`error_prev`, `output_prev` and `integral_prev` to 0 and leaves `P`, `I`, `D`,
`output_ramp`, `limit` and `timestamp_prev` unchanged. -/
theorem pid_reset_frame (s : PIDController) :
    s.reset.error_prev = 0 ∧ s.reset.output_prev = 0 ∧ s.reset.integral_prev = 0 ∧
    s.reset.P = s.P ∧ s.reset.I = s.I ∧ s.reset.D = s.D ∧
    s.reset.output_ramp = s.output_ramp ∧ s.reset.limit = s.limit ∧
    s.reset.timestamp_prev = s.timestamp_prev :=
  ⟨rfl, rfl, rfl, rfl, rfl, rfl, rfl, rfl, rfl⟩

/-- C13 (state update of one evaluation). For every state, error, `Ts` and
`Ts_inv`, after `calc_pid(error, Ts, Ts_inv)` the stored `error_prev` is the
error passed, the stored `output_prev` is the returned value, the stored
`integral_prev` is the constrained trapezoidal integral of the call, and `P`,
`I`, `D`, `output_ramp`, `limit` and `timestamp_prev` are unchanged; the stored
`output_prev` is the ramp-limited value: there is a call after which it differs
from the constrained sum. -/
theorem pid_state_update (s : PIDController) (error Ts Ts_inv : ℚ) :
    (s.calc_pid error Ts Ts_inv).2.error_prev = error ∧
    (s.calc_pid error Ts Ts_inv).2.output_prev = (s.calc_pid error Ts Ts_inv).1 ∧
    (s.calc_pid error Ts Ts_inv).2.integral_prev =
      _constrain (s.integral_prev + s.I * Ts / 2 * (error + s.error_prev))
        (-s.limit) s.limit ∧
    (s.calc_pid error Ts Ts_inv).2.P = s.P ∧
    (s.calc_pid error Ts Ts_inv).2.I = s.I ∧
    (s.calc_pid error Ts Ts_inv).2.D = s.D ∧
    (s.calc_pid error Ts Ts_inv).2.output_ramp = s.output_ramp ∧
    (s.calc_pid error Ts Ts_inv).2.limit = s.limit ∧
    (s.calc_pid error Ts Ts_inv).2.timestamp_prev = s.timestamp_prev ∧
    (∃ (s0 : PIDController) (e0 T0 : ℚ),
      (s0.calc_pid e0 T0 (1 / T0)).2.output_prev ≠ s0.clamped_sum e0 T0 (1 / T0)) := by
  refine ⟨rfl, rfl, ?_, rfl, rfl, rfl, rfl, rfl, rfl, ?_⟩
  · show s.integral_term error Ts = _
    unfold integral_term
    rw [mul_one_div]
  · refine ⟨ctor 10 0 0 2 50 0, 3, 1 / 4, ?_⟩
    norm_num [calc_pid, clamped_sum, integral_term, ctor, _constrain]

/-- C16 (the self-timed form never passes a non-positive or oversized time
step). For every pair of timestamps, including `timestamp_now <
timestamp_prev`, the self-timed form is `calc_pid(error, Ts)` for a `Ts` with
`0 < Ts ≤ 1/2`; in particular `Ts ≠ 0` and `1/Ts` is its inverse. -/
theorem pid_self_timed_step_range (w : ℕ) (s : PIDController) (timestamp_now : ℕ)
    (error : ℚ) :
    operator_call w s timestamp_now error =
      ((s.calc_pid_Ts error (effective_Ts w s timestamp_now)).1,
        (s.calc_pid_Ts error (effective_Ts w s timestamp_now)).2.withTimestamp
          timestamp_now) ∧
    0 < effective_Ts w s timestamp_now ∧
    effective_Ts w s timestamp_now ≤ 1 / 2 ∧
    effective_Ts w s timestamp_now ≠ 0 ∧
    effective_Ts w s timestamp_now * (1 / effective_Ts w s timestamp_now) = 1 := by
  have hpos : 0 < effective_Ts w s timestamp_now := by
    unfold effective_Ts
    split_ifs with h
    · norm_num
    · push_neg at h
      exact h.1
  have hle : effective_Ts w s timestamp_now ≤ 1 / 2 := by
    unfold effective_Ts
    split_ifs with h
    · norm_num
    · push_neg at h
      exact h.2
  exact ⟨rfl, hpos, hle, ne_of_gt hpos, mul_one_div_cancel (ne_of_gt hpos)⟩

/-- C14 (initialisation of the HFI angle-error gain). The member initialiser
sets `predivAngleest = 1/(hfi_v*Ts*(1/Lq - 1/Ld))` and `Ts_div = 1/Ts`; for the
default configuration (`Ld = 16e-3`, `Lq = 24e-3`, `hfi_v = 4`,
`Ts = 1/60000`) the divisor is non-zero (it is `-1/720`), `predivAngleest` is
`-720` and `Ts_div` is `60000`, in exact rational arithmetic. -/
theorem hfi_predivAngleest_default :
    (∀ Ld Lq hfi_v Ts : ℚ,
      (HFIBLDCMotor.member_init Ld Lq hfi_v Ts).predivAngleest =
          1 / (hfi_v * Ts * (1 / Lq - 1 / Ld)) ∧
        (HFIBLDCMotor.member_init Ld Lq hfi_v Ts).Ts_div = 1 / Ts) ∧
    HFIBLDCMotor.defaults.Ld = 16 / 1000 ∧
    HFIBLDCMotor.defaults.Lq = 24 / 1000 ∧
    HFIBLDCMotor.defaults.hfi_v = 4 ∧
    HFIBLDCMotor.defaults.Ts = 1 / 60000 ∧
    HFIBLDCMotor.predivAngleest_divisor HFIBLDCMotor.defaults.hfi_v
      HFIBLDCMotor.defaults.Ts HFIBLDCMotor.defaults.Lq HFIBLDCMotor.defaults.Ld
        = -1 / 720 ∧
    HFIBLDCMotor.predivAngleest_divisor HFIBLDCMotor.defaults.hfi_v
      HFIBLDCMotor.defaults.Ts HFIBLDCMotor.defaults.Lq HFIBLDCMotor.defaults.Ld ≠ 0 ∧
    HFIBLDCMotor.defaults.predivAngleest = -720 ∧
    HFIBLDCMotor.defaults.Ts_div = 60000 := by
  have hdiv : HFIBLDCMotor.predivAngleest_divisor HFIBLDCMotor.defaults.hfi_v
      HFIBLDCMotor.defaults.Ts HFIBLDCMotor.defaults.Lq HFIBLDCMotor.defaults.Ld
        = -1 / 720 := by
    norm_num [HFIBLDCMotor.predivAngleest_divisor, HFIBLDCMotor.defaults,
      HFIBLDCMotor.member_init]
  refine ⟨fun _ _ _ _ => ⟨rfl, rfl⟩, rfl, rfl, rfl, rfl, hdiv, ?_, ?_, ?_⟩
  · rw [hdiv]
    norm_num
  · norm_num [HFIBLDCMotor.defaults, HFIBLDCMotor.member_init,
      HFIBLDCMotor.init_predivAngleest]
  · norm_num [HFIBLDCMotor.defaults, HFIBLDCMotor.member_init, HFIBLDCMotor.init_Ts_div]

/-- C19 (odd symmetry of the controller). For `limit ≥ 0` and every gains,
ramp, `Ts` and `Ts_inv`, on the state that differs from `s` only by negation of
`error_prev`, `output_prev` and `integral_prev`, `calc_pid(-error, Ts, Ts_inv)`
returns the negation of what `calc_pid(error, Ts, Ts_inv)` returns on `s`, and
the two resulting states differ again only by negation of the three history
values. -/
theorem pid_odd_symmetry (s : PIDController) (error Ts Ts_inv : ℚ)
    (hlim : 0 ≤ s.limit) :
    (s.negHistory.calc_pid (-error) Ts Ts_inv).1 = -(s.calc_pid error Ts Ts_inv).1 ∧
    (s.negHistory.calc_pid (-error) Ts Ts_inv).2 =
      (s.calc_pid error Ts Ts_inv).2.negHistory ∧
    s.negHistory.P = s.P ∧ s.negHistory.I = s.I ∧ s.negHistory.D = s.D ∧
    s.negHistory.output_ramp = s.output_ramp ∧ s.negHistory.limit = s.limit ∧
    s.negHistory.timestamp_prev = s.timestamp_prev ∧
    s.negHistory.error_prev = -s.error_prev ∧
    s.negHistory.output_prev = -s.output_prev ∧
    s.negHistory.integral_prev = -s.integral_prev := by
  have hfst := s.calc_pid_fst_negHistory error Ts Ts_inv hlim
  refine ⟨hfst, ?_, rfl, rfl, rfl, rfl, rfl, rfl, rfl, rfl, rfl⟩
  rw [calc_pid_snd, hfst, s.integral_term_negHistory error Ts hlim]
  rfl

/-- Witness of C19: `PID(P=2, I=1, D=1, ramp=3, limit=10)` with history
`error_prev = 1`, `output_prev = -4`, `integral_prev = 2`, called with
`error = 3` at `Ts = 1/2`, `Ts_inv = 2`, against its negation called with
`error = -3`. -/
theorem pid_odd_symmetry_witness :
    (0 : ℚ) ≤ (PIDController.mk 2 1 1 3 10 1 (-4) 2 0).limit ∧
    (PIDController.mk 2 1 1 3 10 1 (-4) 2 0).negHistory
      = PIDController.mk 2 1 1 3 10 (-1) (- -4) (-2) 0 ∧
    ((PIDController.mk 2 1 1 3 10 1 (-4) 2 0).calc_pid 3 (1 / 2) 2).1 = -5 / 2 ∧
    ((PIDController.mk 2 1 1 3 10 1 (-4) 2 0).negHistory.calc_pid (-3) (1 / 2) 2).1
      = -((PIDController.mk 2 1 1 3 10 1 (-4) 2 0).calc_pid 3 (1 / 2) 2).1 := by
  have h1 : (0 : ℚ) ≤ (PIDController.mk 2 1 1 3 10 1 (-4) 2 0).limit := by norm_num
  have h := pid_odd_symmetry (PIDController.mk 2 1 1 3 10 1 (-4) 2 0) 3 (1 / 2) 2 h1
  refine ⟨h1, rfl, ?_, h.1⟩
  norm_num [calc_pid, _constrain]

/-! ## Evaluations of the machine reading -/

set_option exponentiation.threshold 1000

/-- Sample evaluations of the binary32 operations: `1/3` and `0.1f + 0.2f`
rounded to nearest, two ties resolved to the even neighbour, an overflow of a
product, a tie at the least subnormal, the sign of an exact zero difference,
and the comparisons with a NaN. -/
theorem F32.arith_examples :
    F32.div (F32.ofNat 1) (F32.ofNat 3) = F32.dyadic false 11184811 25 ∧
    F32.add (F32.dyadic false 13421773 27) (F32.dyadic false 13421773 26)
      = F32.dyadic false 5033165 24 ∧
    F32.add (F32.ofNat 16777216) (F32.ofNat 1) = F32.ofNat 16777216 ∧
    F32.add (F32.ofNat 16777218) (F32.ofNat 1) = F32.ofNat 16777220 ∧
    F32.mul (F32.finite false (2 ^ 276)) (F32.ofNat 2) = F32.inf false ∧
    F32.mul (F32.finite false 1) (F32.dyadic false 1 1) = F32.finite false 0 ∧
    F32.mul (F32.finite false 3) (F32.dyadic false 1 1) = F32.finite false 2 ∧
    F32.sub (F32.ofNat 1) (F32.ofNat 1) = F32.finite false 0 ∧
    F32.mul (F32.finite false 0) (F32.inf false) = F32.nan ∧
    F32.lt F32.nan (F32.ofNat 1) = false ∧ F32.lt (F32.ofNat 1) F32.nan = false ∧
    F32.lt (F32.finite true 0) (F32.finite false 0) = false := by
  decide!

